import Mathlib

/-!
Verification of the conversation-state and indexing core of this repository,
together with the two concrete source files present in the snapshot
(`src/dailyai/services/deepgram_ai_services.py` and
`examples/foundational/switch-voices-for-each-character-on-script-from-llm.py`).

The core message handler (`message_handler/message_handler.py`) is exercised by
`tests/test_message_handler.py` but its source file is not part of the
snapshot, so the `MessageHandler` / `IndexingMessageHandler` definitions below
are modelled from the specification's description of that missing module.
-/

/-- Role tag of a conversation message (spec section 3, `Message.role`). -/
inductive Role where
  | system
  | user
  | assistant
deriving DecidableEq, Repr

/-- Modelled from the spec: a `Message` of the missing
`message_handler/message_handler.py` module — a role-tagged piece of text
(spec section 3). -/
structure Message where
  role : Role
  content : String
deriving DecidableEq, Repr

/-- Modelled from the spec: a `Turn` of the missing
`message_handler/message_handler.py` module — one user utterance, at most one
assistant reply, and a finalization flag (spec section 3). -/
structure Turn where
  userMessage : String
  assistantMessage : Option String
  finalized : Bool
deriving DecidableEq, Repr

/-- Modelled from the spec: the `MessageHandler` (ConversationLog) state of the
missing `message_handler/message_handler.py` module — a system message plus an
ordered sequence of turns (spec section 3). -/
structure MessageHandler where
  systemPrompt : String
  turns : List Turn
deriving DecidableEq, Repr

/-- Modelled from the spec: the continuation relation of spec section 3 — the
new user text continues the old one iff the old text is a character-exact,
case-sensitive prefix of the new text. -/
def isContinuation (uOld uNew : String) : Bool :=
  uOld.data.isPrefixOf uNew.data

/-- A brand-new open turn holding only a user message. -/
def freshTurn (text : String) : Turn :=
  { userMessage := text, assistantMessage := none, finalized := false }

/-- Modelled from the spec: `create(systemPrompt)` of the missing
`MessageHandler` class — initializes with the system message and zero turns
(spec section 4.1). -/
def MessageHandler.create (systemPrompt : String) : MessageHandler :=
  { systemPrompt := systemPrompt, turns := [] }

/-- Modelled from the spec: `appendUserMessage` (`add_user_message`) of the
missing `MessageHandler` class (spec section 4.1): a new open turn is started
when no turn exists or the most recent turn is finalized; otherwise the
continuation relation decides between replacing the open turn's user text in
place (no assistant message yet), superseding the whole open turn (assistant
message present), or starting a new turn (not a continuation). -/
def MessageHandler.add_user_message (h : MessageHandler) (text : String) :
    MessageHandler :=
  match h.turns.getLast? with
  | none => { h with turns := h.turns ++ [freshTurn text] }
  | some t =>
    if t.finalized then
      { h with turns := h.turns ++ [freshTurn text] }
    else if isContinuation t.userMessage text then
      match t.assistantMessage with
      | none =>
        { h with turns := h.turns.dropLast ++ [{ t with userMessage := text }] }
      | some _ =>
        { h with turns := h.turns.dropLast ++ [freshTurn text] }
    else
      { h with turns := h.turns ++ [freshTurn text] }

/-- The error taxonomy of spec section 7 that is visible to callers of the
conversation-mutation path. -/
inductive PyError where
  | invalidStateError
deriving DecidableEq, Repr

/-- Modelled from the spec: `appendAssistantMessage` (`add_assistant_message`)
of the missing `MessageHandler` class (spec section 4.1): fails with
`InvalidStateError` when no turn exists, otherwise sets the assistant text on
the most recent turn, overwriting any prior assistant text. -/
def MessageHandler.add_assistant_message (h : MessageHandler) (text : String) :
    Except PyError MessageHandler :=
  match h.turns.getLast? with
  | none => .error .invalidStateError
  | some t =>
    .ok { h with
          turns := h.turns.dropLast ++ [{ t with assistantMessage := some text }] }

/-- The flat rendering of one turn: its user message followed by its assistant
message when present (spec section 3 rendering invariant). -/
def renderTurn (t : Turn) : List Message :=
  ⟨Role.user, t.userMessage⟩ ::
    (match t.assistantMessage with
     | some a => [⟨Role.assistant, a⟩]
     | none => [])

/-- Modelled from the spec: `renderMessages` (`get_llm_messages`) of the missing
`MessageHandler` class — the pure projection `[system] + for each turn:
[user, assistant?]` (spec sections 3 and 4.1). -/
def MessageHandler.get_llm_messages (h : MessageHandler) : List Message :=
  ⟨Role.system, h.systemPrompt⟩ :: h.turns.flatMap renderTurn

/-- The `ExtractionService` capability of spec section 6: given the full
rendered message history and the latest user text, produce a parsed string. -/
abbrev ExtractionService := List Message → String → String

/-- Modelled from the spec: the `IndexingMessageHandler` state of the missing
`message_handler/message_handler.py` module — the base conversation log plus
the background indexing queue.  `pending` holds the enqueued index writes (in
enqueue order) that the background worker has not yet performed; `written`
holds the `Indexer.indexText` calls already performed, in order (spec
sections 4.2 and 5). -/
structure IndexingMessageHandler where
  base : MessageHandler
  pending : List String
  written : List String
deriving DecidableEq, Repr

/-- Modelled from the spec: `create` of the missing `IndexingMessageHandler`
class — the base log with an empty indexing queue. -/
def IndexingMessageHandler.create (systemPrompt : String) :
    IndexingMessageHandler :=
  { base := MessageHandler.create systemPrompt, pending := [], written := [] }

/-- Modelled from the spec: `appendUserMessage` on the indexing log — the base
mutation only; appending user text never enqueues index work (spec
section 4.1: no side effects beyond in-memory mutation). -/
def IndexingMessageHandler.add_user_message (h : IndexingMessageHandler)
    (text : String) : IndexingMessageHandler :=
  { h with base := h.base.add_user_message text }

/-- Modelled from the spec: `appendAssistantMessage` on the indexing log (spec
sections 4.1 and 4.2): fails with `InvalidStateError` when no turn exists;
otherwise sets the assistant text on the most recent turn, and when that turn
is already finalized additionally enqueues the text for background indexing
immediately; on a not-yet-finalized turn indexing is deferred to
finalization. -/
def IndexingMessageHandler.add_assistant_message (h : IndexingMessageHandler)
    (text : String) : Except PyError IndexingMessageHandler :=
  match h.base.turns.getLast? with
  | none => .error .invalidStateError
  | some t =>
    let base :=
      { h.base with
        turns := h.base.turns.dropLast ++ [{ t with assistantMessage := some text }] }
    if t.finalized then
      .ok { h with base := base, pending := h.pending ++ [text] }
    else
      .ok { h with base := base }

/-- Modelled from the spec: `finalizeCurrentUserMessage`
(`finalize_user_message`) of the missing `IndexingMessageHandler` class (spec
section 4.2): a no-op unless an open (non-finalized) turn with a user message
exists; otherwise marks that turn finalized, invokes the ExtractionService on
the full rendered history and the turn's user text, enqueues the parsed user
content, and — when the turn already carries an assistant message — enqueues
that assistant content right after it. -/
def IndexingMessageHandler.finalize_user_message (extract : ExtractionService)
    (h : IndexingMessageHandler) : IndexingMessageHandler :=
  match h.base.turns.getLast? with
  | none => h
  | some t =>
    if t.finalized then h
    else
      let parsed := extract h.base.get_llm_messages t.userMessage
      let base :=
        { h.base with turns := h.base.turns.dropLast ++ [{ t with finalized := true }] }
      let items :=
        parsed ::
          (match t.assistantMessage with
           | some a => [a]
           | none => [])
      { h with base := base, pending := h.pending ++ items }

/-- Modelled from the spec: one step of the single background worker (spec
sections 4.2 and 5) — it takes the oldest enqueued item and performs the
`Indexer.indexText` write for it, preserving enqueue order. -/
def IndexingMessageHandler.workerStep (h : IndexingMessageHandler) :
    IndexingMessageHandler :=
  match h.pending with
  | [] => h
  | x :: rest => { h with pending := rest, written := h.written ++ [x] }

/-- Run the background worker for `n` steps. -/
def IndexingMessageHandler.runWorker :
    IndexingMessageHandler → Nat → IndexingMessageHandler
  | h, 0 => h
  | h, n + 1 => h.workerStep.runWorker n

/-- Modelled from the spec: the drain-barrier (`write_messages_to_index` plus
waiting, spec sections 4.2 and 9) — blocks until every item enqueued before
the call has been written by the background worker; a pure flush, not a
finalize trigger. -/
def IndexingMessageHandler.write_messages_to_index
    (h : IndexingMessageHandler) : IndexingMessageHandler :=
  h.runWorker h.pending.length

/-- One conversation-mutation call on the plain `MessageHandler`. -/
inductive MsgOp where
  | user (text : String)
  | assistant (text : String)
deriving DecidableEq, Repr

/-- Apply one mutation call to a `MessageHandler`. -/
def MessageHandler.applyOp (h : MessageHandler) :
    MsgOp → Except PyError MessageHandler
  | .user t => .ok (h.add_user_message t)
  | .assistant t => h.add_assistant_message t

/-- Run a sequence of mutation calls on a `MessageHandler`, stopping at the
first `InvalidStateError`. -/
def MessageHandler.runOps (h : MessageHandler) :
    List MsgOp → Except PyError MessageHandler
  | [] => .ok h
  | op :: rest => (h.applyOp op).bind fun h2 => h2.runOps rest

/-- One caller-visible call on the `IndexingMessageHandler`: the two append
operations, finalization, and the drain-barrier. -/
inductive IdxOp where
  | user (text : String)
  | assistant (text : String)
  | finalize
  | drain
deriving DecidableEq, Repr

/-- Apply one call to an `IndexingMessageHandler`. -/
def IndexingMessageHandler.applyOp (extract : ExtractionService)
    (h : IndexingMessageHandler) :
    IdxOp → Except PyError IndexingMessageHandler
  | .user t => .ok (h.add_user_message t)
  | .assistant t => h.add_assistant_message t
  | .finalize => .ok (h.finalize_user_message extract)
  | .drain => .ok h.write_messages_to_index

/-- Run a sequence of calls on an `IndexingMessageHandler`, stopping at the
first `InvalidStateError`. -/
def IndexingMessageHandler.runOps (extract : ExtractionService)
    (h : IndexingMessageHandler) :
    List IdxOp → Except PyError IndexingMessageHandler
  | [] => .ok h
  | op :: rest =>
    (h.applyOp extract op).bind fun h2 =>
      IndexingMessageHandler.runOps extract h2 rest

/-! ## `src/dailyai/services/deepgram_ai_services.py`

`DeepgramTTSService.__init__` resolves its voice and speech key with Python
`or`-chains over the constructor arguments, environment values and a literal
default.  A Python optional-string value is `none` (Python `None`, e.g. an
unset environment variable or an omitted argument) or `some s`; Python
truthiness makes both `None` and the empty string falsy. -/

/-- Python truthiness of an optional string: `None` and `""` are falsy. -/
def pyTruthy : Option String → Bool
  | none => false
  | some s => !(s == "")

/-- The Python expression `a or b` on optional strings. -/
def pyOr (a b : Option String) : Option String :=
  if pyTruthy a then a else b

namespace DeepgramTTSService

/-- `self._voice = voice or os.getenv("DEEPGRAM_VOICE") or "alpha-asteria-en-v2"`
(deepgram_ai_services.py line 15), with `envVoice` standing for the value of
`os.getenv("DEEPGRAM_VOICE")`. -/
def voiceInit (voice envVoice : Option String) : Option String :=
  pyOr voice (pyOr envVoice (some "alpha-asteria-en-v2"))

/-- `self._speech_key = speech_key or os.getenv("DEEPGRAM_API_KEY")`
(deepgram_ai_services.py line 16), with `envKey` standing for the value of
`os.getenv("DEEPGRAM_API_KEY")`. -/
def speechKeyInit (speech_key envKey : Option String) : Option String :=
  pyOr speech_key envKey

end DeepgramTTSService

/-- The claim's resolution rule, stated in its own words: the first candidate
that is present and non-empty. -/
def specFirstNonEmpty : List (Option String) → Option String
  | [] => none
  | none :: rest => specFirstNonEmpty rest
  | some s :: rest => if s = "" then specFirstNonEmpty rest else some s

/-- The claim's resolution rule for the speech key, stated in its own words:
the argument when non-empty, otherwise the environment value. -/
def specKeyResolution (arg env : Option String) : Option String :=
  match arg with
  | none => env
  | some s => if s = "" then env else some s

/-! ## `examples/foundational/switch-voices-for-each-character-on-script-from-llm.py`

`FrameAndCharacterHandler.create_custom_frame` works on Python strings; text
is embedded as `List Char` so every operation (substring test, `str.replace`,
`str.strip`) is a structurally recursive function. -/

/-- The two script characters of the example. -/
inductive Character where
  | GIMLI
  | LEGOLAS
deriving DecidableEq, Repr

/-- If `pat` is a leading segment of `s`, the remainder of `s` after it. -/
def stripLeading : List Char → List Char → Option (List Char)
  | [], s => some s
  | _ :: _, [] => none
  | p :: ps, c :: cs => if p = c then stripLeading ps cs else none

/-- Python's substring test `pat in s`. -/
def containsSeq (pat : List Char) : List Char → Bool
  | [] => pat.isEmpty
  | c :: rest => (stripLeading pat (c :: rest)).isSome || containsSeq pat rest

/-- Fuelled helper for `removeAll`; the fuel bounds the number of characters
still to be examined. -/
def removeAllFuel (pat : List Char) : Nat → List Char → List Char
  | _, [] => []
  | 0, s => s
  | n + 1, c :: rest =>
    match stripLeading pat (c :: rest) with
    | some rest2 => removeAllFuel pat n rest2
    | none => c :: removeAllFuel pat n rest

/-- Python's `s.replace(pat, "")` for a non-empty `pat`: remove all
non-overlapping occurrences, scanning left to right. -/
def removeAll (pat s : List Char) : List Char :=
  removeAllFuel pat s.length s

/-- The whitespace characters removed by Python's `str.strip()`: CPython's
Unicode whitespace table — ASCII whitespace, the file/group/record/unit
separators, next line, no-break space, ogham space mark, the en/em-family
spaces U+2000–200A, line and paragraph separators, narrow no-break space,
medium mathematical space, and ideographic space. -/
def isPySpace (c : Char) : Bool :=
  c = ' ' || c = '\t' || c = '\n' || c = '\x0d' || c = '\x0b' || c = '\x0c'
    || c = '\x1c' || c = '\x1d' || c = '\x1e' || c = '\x1f'
    || c = '\x85' || c = '\xa0' || c = '\u1680'
    || c = '\u2000' || c = '\u2001' || c = '\u2002' || c = '\u2003'
    || c = '\u2004' || c = '\u2005' || c = '\u2006' || c = '\u2007'
    || c = '\u2008' || c = '\u2009' || c = '\u200a'
    || c = '\u2028' || c = '\u2029' || c = '\u202f' || c = '\u205f'
    || c = '\u3000'

/-- Drop the longest run of characters satisfying `p` from the front. -/
def dropLeadingWhile (p : Char → Bool) : List Char → List Char
  | [] => []
  | c :: rest => if p c then dropLeadingWhile p rest else c :: rest

/-- Python's `s.strip()`: remove leading and trailing whitespace. -/
def pyStrip (s : List Char) : List Char :=
  ((dropLeadingWhile isPySpace ((dropLeadingWhile isPySpace s.reverse)).reverse))

/-- Gimli's marker `"#####"`. -/
def hashMarker : List Char := "#####".data

/-- Legolas's marker `"-----"`. -/
def dashMarker : List Char := "-----".data

/-- A `CustomFrame` as built by the example: the (marker-stripped) text plus
the character it is attributed to. -/
structure CustomFrame where
  text : List Char
  character : Character
deriving DecidableEq, Repr

/-- `FrameAndCharacterHandler.create_custom_frame` (example script lines
72–82).  The handler state is `self.frame_character` (initially `None`); the
frame's text field is mutated in place.  Returns the updated
`frame_character`, the frame's text after mutation, and the returned frame
(`none` for Python `None`). -/
def create_custom_frame (frameCharacter : Option Character) (text : List Char) :
    Option Character × List Char × Option CustomFrame :=
  let st :=
    if containsSeq hashMarker text then
      (some Character.GIMLI, pyStrip (removeAll hashMarker text))
    else if containsSeq dashMarker text then
      (some Character.LEGOLAS, pyStrip (removeAll dashMarker text))
    else
      (frameCharacter, text)
  match st with
  | (some c, t) =>
    if t.isEmpty then (some c, t, none) else (some c, t, some ⟨t, c⟩)
  | (none, t) => (none, t, none)

/-- The character state after the marker scan: the character of the marker in
this frame when one is present, otherwise the previously seen one. -/
def charAfter (frameCharacter : Option Character) (text : List Char) :
    Option Character :=
  if containsSeq hashMarker text then some Character.GIMLI
  else if containsSeq dashMarker text then some Character.LEGOLAS
  else frameCharacter

/-- The frame text after the marker scan: marker occurrences removed and the
result stripped of surrounding whitespace when a marker is present, the
original text otherwise. -/
def textAfter (text : List Char) : List Char :=
  if containsSeq hashMarker text then pyStrip (removeAll hashMarker text)
  else if containsSeq dashMarker text then pyStrip (removeAll dashMarker text)
  else text

/-! ## Helper lemmas -/

/-- A list whose last element is known decomposes as `dropLast ++ [last]`. -/
theorem eq_dropLast_concat_of_getLast? {α : Type} {l : List α} {a : α}
    (h : l.getLast? = some a) : l = l.dropLast ++ [a] := by
  obtain ⟨ys, rfl⟩ := List.getLast?_eq_some_iff.mp h
  simp

/-- A list with a last element is nonempty. -/
theorem ne_nil_of_getLast? {α : Type} {l : List α} {a : α}
    (h : l.getLast? = some a) : l ≠ [] := by
  intro hn
  subst hn
  simp at h

/-- Running the background worker for exactly the queue length drains the
queue into `written`, in enqueue order. -/
theorem runWorker_drains (p : List String) :
    ∀ (b : MessageHandler) (w : List String),
      IndexingMessageHandler.runWorker ⟨b, p, w⟩ p.length = ⟨b, [], w ++ p⟩ := by
  induction p with
  | nil => intro b w; simp [IndexingMessageHandler.runWorker]
  | cons x rest ih =>
    intro b w
    simp only [List.length_cons, IndexingMessageHandler.runWorker,
      IndexingMessageHandler.workerStep]
    rw [ih b (w ++ [x])]
    simp

/-- The drain-barrier flushes the whole queue into `written`, preserving the
global enqueue order. -/
theorem write_messages_to_index_eq (h : IndexingMessageHandler) :
    h.write_messages_to_index = { h with pending := [], written := h.written ++ h.pending } := by
  cases h with
  | mk b p w => exact runWorker_drains p b w

/-- `add_user_message` never changes the system prompt. -/
theorem add_user_message_systemPrompt (h : MessageHandler) (text : String) :
    (h.add_user_message text).systemPrompt = h.systemPrompt := by
  unfold MessageHandler.add_user_message
  cases h.turns.getLast? with
  | none => rfl
  | some t => (repeat' split) <;> rfl

/-- `add_assistant_message` never changes the system prompt. -/
theorem add_assistant_message_systemPrompt (h h' : MessageHandler) (text : String)
    (hs : h.add_assistant_message text = .ok h') :
    h'.systemPrompt = h.systemPrompt := by
  unfold MessageHandler.add_assistant_message at hs
  cases hl : h.turns.getLast? with
  | none => rw [hl] at hs; cases hs
  | some t =>
    rw [hl] at hs
    cases hs
    rfl

/-- A successful run of mutation calls never changes the system prompt. -/
theorem runOps_systemPrompt (ops : List MsgOp) :
    ∀ (h h' : MessageHandler), h.runOps ops = .ok h' →
      h'.systemPrompt = h.systemPrompt := by
  induction ops with
  | nil =>
    intro h h' hr
    cases hr
    rfl
  | cons op rest ih =>
    intro h h' hr
    cases op with
    | user t =>
      simp only [MessageHandler.runOps, MessageHandler.applyOp, Except.bind] at hr
      rw [ih _ _ hr, add_user_message_systemPrompt]
    | assistant t =>
      simp only [MessageHandler.runOps, MessageHandler.applyOp] at hr
      cases ha : h.add_assistant_message t with
      | error e => rw [ha] at hr; cases hr
      | ok h2 =>
        rw [ha] at hr
        simp only [Except.bind] at hr
        rw [ih _ _ hr, add_assistant_message_systemPrompt h h2 t ha]

/-- Behavior of `add_user_message` when the most recent turn is open. -/
theorem add_user_message_open (h : MessageHandler) (t : Turn) (text : String)
    (hlast : h.turns.getLast? = some t) (hopen : t.finalized = false) :
    h.add_user_message text =
      (if isContinuation t.userMessage text then
        match t.assistantMessage with
        | none => { h with turns := h.turns.dropLast ++ [{ t with userMessage := text }] }
        | some _ => { h with turns := h.turns.dropLast ++ [freshTurn text] }
      else { h with turns := h.turns ++ [freshTurn text] }) := by
  unfold MessageHandler.add_user_message
  rw [hlast]
  simp [hopen]

/-- Behavior of `add_user_message` when the most recent turn is finalized. -/
theorem add_user_message_finalized (h : MessageHandler) (t : Turn) (text : String)
    (hlast : h.turns.getLast? = some t) (hfin : t.finalized = true) :
    h.add_user_message text = { h with turns := h.turns ++ [freshTurn text] } := by
  unfold MessageHandler.add_user_message
  rw [hlast]
  simp [hfin]

/-- Rendering a log whose turn list ends in a fresh turn appends exactly one
user entry to the rendering of the shorter log. -/
theorem get_llm_messages_concat (sp : String) (ts : List Turn) (text : String) :
    MessageHandler.get_llm_messages ⟨sp, ts ++ [freshTurn text]⟩
      = MessageHandler.get_llm_messages ⟨sp, ts⟩ ++ [⟨Role.user, text⟩] := by
  simp [MessageHandler.get_llm_messages, renderTurn, freshTurn]

/-! ## Claim theorems -/

/-- The `ExtractionService` induced by the test's `MockAIService`: `run_llm`
always answers `"Parsed user message."` regardless of the history. -/
def mockExtract : ExtractionService := fun _ _ => "Parsed user message."

/-- The literal call sequence of the scenario up to the first drain-barrier
(`TestIndexingMessageHandler.test_user_message_finalized`). -/
def scenarioOps : List IdxOp :=
  [ .user "User message",
    .assistant "Assistant message will be ignored",
    .user "User message plus something else",
    .finalize,
    .assistant "New assistant message will not be ignored",
    .user "User message second time",
    .assistant "Assistant message second time",
    .drain ]

/-- C1: running the literal scenario from `create("Hello world")` with the
mock extraction service yields exactly the index writes
`["Parsed user message.", "New assistant message will not be ignored"]` at
the first drain-barrier, and a subsequent finalize plus drain yields exactly
the new index writes `["Parsed user message.", "Assistant message second
time"]`, in order. -/
theorem C1_literal_scenario :
    (IndexingMessageHandler.runOps mockExtract
        (IndexingMessageHandler.create "Hello world") scenarioOps).map
        (fun h => h.written)
      = .ok ["Parsed user message.", "New assistant message will not be ignored"]
    ∧ ((IndexingMessageHandler.runOps mockExtract
          (IndexingMessageHandler.create "Hello world") scenarioOps).bind
        (fun h => IndexingMessageHandler.runOps mockExtract h
          [.finalize, .drain])).map
        (fun h => h.written.drop 2)
      = .ok ["Parsed user message.", "Assistant message second time"] :=
  ⟨rfl, rfl⟩

/-- Appending a user message never touches any turn before the open one: the
settled turns stay a prefix of the new turn list. -/
theorem dropLast_prefix_add_user (g : MessageHandler) (text : String) :
    g.turns.dropLast <+: (g.add_user_message text).turns := by
  unfold MessageHandler.add_user_message
  cases g.turns.getLast? with
  | none => exact ( List.dropLast_prefix _).trans (List.prefix_append _ _)
  | some t =>
    (repeat' split) <;>
      first
        | exact List.prefix_append _ _
        | exact ( List.dropLast_prefix _).trans (List.prefix_append _ _)

/-- Appending a user message grows the turn list by at most one turn. -/
theorem length_add_user (g : MessageHandler) (text : String) :
    (g.add_user_message text).turns.length ≤ g.turns.length + 1 := by
  unfold MessageHandler.add_user_message
  cases g.turns.getLast? with
  | none => simp
  | some t => (repeat' split) <;> simp [List.length_dropLast]

/-- A successful `add_assistant_message` rewrites only the last turn. -/
theorem add_assistant_ok (g g' : MessageHandler) (text : String)
    (hs : g.add_assistant_message text = .ok g') :
    ∃ t, g.turns.getLast? = some t
      ∧ g'.turns = g.turns.dropLast ++ [{ t with assistantMessage := some text }] := by
  unfold MessageHandler.add_assistant_message at hs
  cases hl : g.turns.getLast? with
  | none => rw [hl] at hs; cases hs
  | some t =>
    rw [hl] at hs
    cases hs
    exact ⟨t, rfl, rfl⟩

/-- C2: for every sequence of append calls starting from `create(sp)`,
`get_llm_messages` is the system message followed by the turns in order; each
turn renders as exactly one user entry followed by at most one assistant
entry; and every single append step leaves all settled (non-last) turns in
place as a prefix and adds at most one turn, so no turn is ever reordered or
duplicated. -/
theorem C2_render_invariant (sp : String) (ops : List MsgOp) (h : MessageHandler)
    (hrun : (MessageHandler.create sp).runOps ops = .ok h)
    (t : Turn) (g g' : MessageHandler) (op : MsgOp)
    (hstep : g.applyOp op = .ok g') :
    h.get_llm_messages = ⟨Role.system, sp⟩ :: h.turns.flatMap renderTurn
    ∧ (renderTurn t).head? = some ⟨Role.user, t.userMessage⟩
    ∧ (renderTurn t).length ≤ 2
    ∧ g.turns.dropLast <+: g'.turns
    ∧ g'.turns.length ≤ g.turns.length + 1 := by
  refine ⟨?_, rfl, ?_, ?_, ?_⟩
  · have hs := runOps_systemPrompt ops _ _ hrun
    unfold MessageHandler.get_llm_messages
    rw [hs]
    rfl
  · obtain ⟨u, am, f⟩ := t
    cases am <;> simp [renderTurn]
  · cases op with
    | user text =>
      simp only [MessageHandler.applyOp, Except.ok.injEq] at hstep
      rw [← hstep]
      exact dropLast_prefix_add_user g text
    | assistant text =>
      obtain ⟨t0, -, hturns⟩ := add_assistant_ok g g' text hstep
      rw [hturns]
      exact List.prefix_append _ _
  · cases op with
    | user text =>
      simp only [MessageHandler.applyOp, Except.ok.injEq] at hstep
      rw [← hstep]
      exact length_add_user g text
    | assistant text =>
      obtain ⟨t0, -, hturns⟩ := add_assistant_ok g g' text hstep
      rw [hturns]
      simp [List.length_dropLast]

/-- Witness for C2 at a concrete run: `create("S")` followed by
`add_user_message("u")`, and one assistant step on the resulting state. -/
theorem C2_render_invariant_witness :
    (MessageHandler.mk "S" [freshTurn "u"]).get_llm_messages
        = ⟨Role.system, "S"⟩ :: [freshTurn "u"].flatMap renderTurn
    ∧ (renderTurn (freshTurn "u")).head? = some ⟨Role.user, "u"⟩
    ∧ (renderTurn (freshTurn "u")).length ≤ 2
    ∧ [freshTurn "u"].dropLast <+: [Turn.mk "u" (some "a") false]
    ∧ [Turn.mk "u" (some "a") false].length ≤ [freshTurn "u"].length + 1 :=
  C2_render_invariant "S" [MsgOp.user "u"] (MessageHandler.mk "S" [freshTurn "u"])
    rfl (freshTurn "u") (MessageHandler.mk "S" [freshTurn "u"])
    (MessageHandler.mk "S" [Turn.mk "u" (some "a") false]) (MsgOp.assistant "a") rfl

/-- C3: when the open turn has user text and an assistant message and a
continuation arrives, the whole turn is discarded and a fresh unfinalized
turn holding the new text takes its place: the turn count is unchanged, the
rendering no longer contains anything from the discarded turn, and no index
write is produced by appending user text. -/
theorem C3_continuation_supersession (h : MessageHandler) (t : Turn)
    (a uNew : String)
    (hlast : h.turns.getLast? = some t) (hopen : t.finalized = false)
    (ha : t.assistantMessage = some a)
    (hcont : isContinuation t.userMessage uNew = true)
    (ih : IndexingMessageHandler) :
    (h.add_user_message uNew).turns = h.turns.dropLast ++ [freshTurn uNew]
    ∧ (h.add_user_message uNew).turns.length = h.turns.length
    ∧ (h.add_user_message uNew).get_llm_messages
        = MessageHandler.get_llm_messages ⟨h.systemPrompt, h.turns.dropLast⟩
            ++ [⟨Role.user, uNew⟩]
    ∧ (ih.add_user_message uNew).pending = ih.pending
    ∧ (ih.add_user_message uNew).written = ih.written := by
  have heq : h.add_user_message uNew
      = { h with turns := h.turns.dropLast ++ [freshTurn uNew] } := by
    rw [add_user_message_open h t uNew hlast hopen]
    simp [hcont, ha]
  refine ⟨by rw [heq], ?_, ?_, rfl, rfl⟩
  · rw [heq]
    have hpos : 0 < h.turns.length :=
      List.length_pos.mpr (ne_nil_of_getLast? hlast)
    simp [List.length_dropLast]
    omega
  · rw [heq]
    exact get_llm_messages_concat h.systemPrompt h.turns.dropLast uNew

/-- Witness for C3 at a concrete superseded turn. -/
theorem C3_continuation_supersession_witness :
    ((MessageHandler.mk "S" [Turn.mk "u" (some "a") false]).add_user_message
        "u plus").turns
        = [Turn.mk "u" (some "a") false].dropLast ++ [freshTurn "u plus"]
    ∧ ((MessageHandler.mk "S" [Turn.mk "u" (some "a") false]).add_user_message
        "u plus").turns.length
        = [Turn.mk "u" (some "a") false].length
    ∧ ((MessageHandler.mk "S" [Turn.mk "u" (some "a") false]).add_user_message
        "u plus").get_llm_messages
        = MessageHandler.get_llm_messages
            ⟨"S", [Turn.mk "u" (some "a") false].dropLast⟩
            ++ [⟨Role.user, "u plus"⟩]
    ∧ ((IndexingMessageHandler.mk
          (MessageHandler.mk "S" [Turn.mk "u" (some "a") false]) [] []
        ).add_user_message "u plus").pending
        = (IndexingMessageHandler.mk
            (MessageHandler.mk "S" [Turn.mk "u" (some "a") false]) [] []).pending
    ∧ ((IndexingMessageHandler.mk
          (MessageHandler.mk "S" [Turn.mk "u" (some "a") false]) [] []
        ).add_user_message "u plus").written
        = (IndexingMessageHandler.mk
            (MessageHandler.mk "S" [Turn.mk "u" (some "a") false]) [] []).written :=
  C3_continuation_supersession ⟨"S", [⟨"u", some "a", false⟩]⟩
    ⟨"u", some "a", false⟩ "a" "u plus" rfl rfl rfl (by decide)
    ⟨⟨"S", [⟨"u", some "a", false⟩]⟩, [], []⟩

/-- C4: finalizing a turn that carries an assistant message enqueues the
parsed user content strictly before the assistant content of that same turn,
and the background worker performs all `Indexer` writes in global enqueue
order — the drain-barrier appends the whole queue to `written` unchanged. -/
theorem C4_index_write_ordering (extract : ExtractionService)
    (h : IndexingMessageHandler) (t : Turn) (a : String)
    (hlast : h.base.turns.getLast? = some t) (hopen : t.finalized = false)
    (ha : t.assistantMessage = some a)
    (h2 : IndexingMessageHandler) :
    (h.finalize_user_message extract).pending
        = h.pending ++ [extract h.base.get_llm_messages t.userMessage, a]
    ∧ h2.write_messages_to_index
        = { h2 with pending := [], written := h2.written ++ h2.pending } := by
  refine ⟨?_, write_messages_to_index_eq h2⟩
  unfold IndexingMessageHandler.finalize_user_message
  rw [hlast]
  simp [hopen, ha]

/-- Witness for C4 at a concrete open turn with an assistant message. -/
theorem C4_index_write_ordering_witness :
    ((IndexingMessageHandler.mk
        (MessageHandler.mk "S" [Turn.mk "u" (some "a") false]) ["q"] ["w"]
      ).finalize_user_message mockExtract).pending
        = ["q"] ++ [mockExtract
            (MessageHandler.mk "S" [Turn.mk "u" (some "a") false]).get_llm_messages
            "u", "a"]
    ∧ (IndexingMessageHandler.mk
        (MessageHandler.mk "S" [Turn.mk "u" (some "a") false]) ["q"] ["w"]
      ).write_messages_to_index
        = { IndexingMessageHandler.mk
              (MessageHandler.mk "S" [Turn.mk "u" (some "a") false]) ["q"] ["w"] with
            pending := ([] : List String),
            written := ["w"] ++ ["q"] } :=
  C4_index_write_ordering mockExtract
    ⟨⟨"S", [⟨"u", some "a", false⟩]⟩, ["q"], ["w"]⟩
    ⟨"u", some "a", false⟩ "a" rfl rfl rfl
    ⟨⟨"S", [⟨"u", some "a", false⟩]⟩, ["q"], ["w"]⟩

/-- C5: with an open turn that has no assistant message yet, an incoming user
text is treated as a continuation exactly when the stored user text is a
character-exact prefix of it; a continuation replaces the user text of that
same turn in place (same identity, same count), anything else starts a new
turn. -/
theorem C5_continuation_replacement (h : MessageHandler) (t : Turn)
    (uNew : String)
    (hlast : h.turns.getLast? = some t) (hopen : t.finalized = false)
    (hnoa : t.assistantMessage = none) :
    (isContinuation t.userMessage uNew = true
      ↔ ∃ rest : List Char, t.userMessage.data ++ rest = uNew.data)
    ∧ (h.add_user_message uNew).turns
        = (if isContinuation t.userMessage uNew then
            h.turns.dropLast ++ [{ t with userMessage := uNew }]
          else
            h.turns ++ [freshTurn uNew])
    ∧ (h.add_user_message uNew).turns.length
        = (if isContinuation t.userMessage uNew then
            h.turns.length
          else
            h.turns.length + 1) := by
  have hiff : isContinuation t.userMessage uNew = true
      ↔ ∃ rest : List Char, t.userMessage.data ++ rest = uNew.data :=
    List.isPrefixOf_iff_prefix
  have hpos : 0 < h.turns.length :=
    List.length_pos.mpr (ne_nil_of_getLast? hlast)
  refine ⟨hiff, ?_, ?_⟩ <;>
    · rw [add_user_message_open h t uNew hlast hopen]
      by_cases hc : isContinuation t.userMessage uNew <;>
        simp [hc, hnoa, List.length_dropLast] <;> omega

/-- Witness for C5 at a concrete open unanswered turn. -/
theorem C5_continuation_replacement_witness :
    (isContinuation "u" "u plus" = true
      ↔ ∃ rest : List Char, "u".data ++ rest = "u plus".data)
    ∧ ((MessageHandler.mk "S" [Turn.mk "u" none false]).add_user_message
        "u plus").turns
        = (if isContinuation "u" "u plus" then
            [Turn.mk "u" none false].dropLast ++ [{ Turn.mk "u" none false with
                                                    userMessage := "u plus" }]
          else
            [Turn.mk "u" none false] ++ [freshTurn "u plus"])
    ∧ ((MessageHandler.mk "S" [Turn.mk "u" none false]).add_user_message
        "u plus").turns.length
        = (if isContinuation "u" "u plus" then
            [Turn.mk "u" none false].length
          else
            [Turn.mk "u" none false].length + 1) :=
  C5_continuation_replacement ⟨"S", [⟨"u", none, false⟩]⟩ ⟨"u", none, false⟩
    "u plus" rfl rfl rfl

/-- C6: when the most recent turn's user text is not a prefix of the incoming
text, a brand-new open turn holding the new text is appended, and the
previous turn — finalized or not, answered or not — is left unchanged in
place, still rendered before the new turn. -/
theorem C6_new_turn_on_non_continuation (h : MessageHandler) (t : Turn)
    (uNew : String)
    (hlast : h.turns.getLast? = some t)
    (hnc : isContinuation t.userMessage uNew = false) :
    (h.add_user_message uNew).turns = h.turns ++ [freshTurn uNew]
    ∧ (h.add_user_message uNew).get_llm_messages
        = h.get_llm_messages ++ [⟨Role.user, uNew⟩] := by
  have heq : h.add_user_message uNew
      = { h with turns := h.turns ++ [freshTurn uNew] } := by
    cases hf : t.finalized with
    | true => exact add_user_message_finalized h t uNew hlast hf
    | false =>
      rw [add_user_message_open h t uNew hlast hf]
      simp [hnc]
  refine ⟨by rw [heq], ?_⟩
  rw [heq]
  exact get_llm_messages_concat h.systemPrompt h.turns uNew

/-- Witness for C6 at a concrete unanswered, non-continuing turn. -/
theorem C6_new_turn_witness :
    ((MessageHandler.mk "S" [Turn.mk "u" none false]).add_user_message
        "other").turns
        = [Turn.mk "u" none false] ++ [freshTurn "other"]
    ∧ ((MessageHandler.mk "S" [Turn.mk "u" none false]).add_user_message
        "other").get_llm_messages
        = (MessageHandler.mk "S" [Turn.mk "u" none false]).get_llm_messages
            ++ [⟨Role.user, "other"⟩] :=
  C6_new_turn_on_non_continuation ⟨"S", [⟨"u", none, false⟩]⟩
    ⟨"u", none, false⟩ "other" rfl (by decide)

/-- Finalization is a no-op on a log with zero turns. -/
theorem finalize_noop_of_nil (extract : ExtractionService)
    (h : IndexingMessageHandler) (hn : h.base.turns = []) :
    h.finalize_user_message extract = h := by
  unfold IndexingMessageHandler.finalize_user_message
  rw [hn]
  rfl

/-- Finalization is a no-op when the most recent turn is already finalized. -/
theorem finalize_noop_of_finalized (extract : ExtractionService)
    (h : IndexingMessageHandler) (t : Turn)
    (hl : h.base.turns.getLast? = some t) (hf : t.finalized = true) :
    h.finalize_user_message extract = h := by
  unfold IndexingMessageHandler.finalize_user_message
  rw [hl]
  simp [hf]

/-- C7: `finalize_user_message` with no open, non-finalized turn is a no-op —
the whole state, queue included, is unchanged — and in particular finalizing
twice in a row is the same as finalizing once. -/
theorem C7_finalize_idempotent (extract : ExtractionService)
    (h h2 : IndexingMessageHandler)
    (hno : h.base.turns = []
      ∨ ∃ t, h.base.turns.getLast? = some t ∧ t.finalized = true) :
    h.finalize_user_message extract = h
    ∧ (h2.finalize_user_message extract).finalize_user_message extract
        = h2.finalize_user_message extract := by
  constructor
  · rcases hno with hn | ⟨t, hl, hf⟩
    · exact finalize_noop_of_nil extract h hn
    · exact finalize_noop_of_finalized extract h t hl hf
  · cases hl : h2.base.turns.getLast? with
    | none =>
      have h2n : h2.base.turns = [] := List.getLast?_eq_none_iff.mp hl
      rw [finalize_noop_of_nil extract h2 h2n, finalize_noop_of_nil extract h2 h2n]
    | some t =>
      cases hf : t.finalized with
      | true =>
        rw [finalize_noop_of_finalized extract h2 t hl hf,
          finalize_noop_of_finalized extract h2 t hl hf]
      | false =>
        apply finalize_noop_of_finalized extract _ { t with finalized := true } ?_ rfl
        unfold IndexingMessageHandler.finalize_user_message
        rw [hl]
        simp [hf, List.getLast?_concat]

/-- Witness for C7 on a log with zero turns. -/
theorem C7_finalize_idempotent_witness :
    (IndexingMessageHandler.create "S").finalize_user_message mockExtract
        = IndexingMessageHandler.create "S"
    ∧ ((IndexingMessageHandler.create "S").finalize_user_message
          mockExtract).finalize_user_message mockExtract
        = (IndexingMessageHandler.create "S").finalize_user_message mockExtract :=
  C7_finalize_idempotent mockExtract (IndexingMessageHandler.create "S")
    (IndexingMessageHandler.create "S") (Or.inl rfl)

/-- C8: `add_assistant_message` on a log with zero turns fails synchronously
with `InvalidStateError` (on both the plain and the indexing handler), and in
every other state it sets the assistant text on the most recent turn,
overwriting any prior assistant text on that same turn (enqueuing it
immediately exactly when that turn is already finalized). -/
theorem C8_assistant_message (text : String)
    (h0 : IndexingMessageHandler) (hzero : h0.base.turns = [])
    (h : IndexingMessageHandler) (t : Turn)
    (hlast : h.base.turns.getLast? = some t) :
    h0.add_assistant_message text = .error PyError.invalidStateError
    ∧ h.add_assistant_message text
        = .ok { h with
                base := { h.base with
                          turns := h.base.turns.dropLast
                                     ++ [{ t with assistantMessage := some text }] },
                pending := if t.finalized then h.pending ++ [text] else h.pending }
    ∧ h0.base.add_assistant_message text = .error PyError.invalidStateError
    ∧ h.base.add_assistant_message text
        = .ok { h.base with
                turns := h.base.turns.dropLast
                           ++ [{ t with assistantMessage := some text }] } := by
  refine ⟨?_, ?_, ?_, ?_⟩
  · unfold IndexingMessageHandler.add_assistant_message
    rw [hzero]
    rfl
  · unfold IndexingMessageHandler.add_assistant_message
    rw [hlast]
    cases hf : t.finalized <;> simp [hf]
  · unfold MessageHandler.add_assistant_message
    rw [hzero]
    rfl
  · unfold MessageHandler.add_assistant_message
    rw [hlast]

/-- Witness for C8: the zero-turn failure on a fresh log, and the overwrite of
a prior assistant text on a concrete finalized turn. -/
theorem C8_assistant_message_witness :
    (IndexingMessageHandler.create "S").add_assistant_message "x"
        = .error PyError.invalidStateError
    ∧ (IndexingMessageHandler.mk
          (MessageHandler.mk "S" [Turn.mk "u" (some "old") true]) [] []
        ).add_assistant_message "x"
        = .ok { IndexingMessageHandler.mk
                  (MessageHandler.mk "S" [Turn.mk "u" (some "old") true]) [] [] with
                base := { MessageHandler.mk "S" [Turn.mk "u" (some "old") true] with
                          turns := [Turn.mk "u" (some "old") true].dropLast
                                     ++ [{ Turn.mk "u" (some "old") true with
                                           assistantMessage := some "x" }] },
                pending := if (Turn.mk "u" (some "old") true).finalized then
                    ([] : List String) ++ ["x"]
                  else
                    ([] : List String) }
    ∧ (IndexingMessageHandler.create "S").base.add_assistant_message "x"
        = .error PyError.invalidStateError
    ∧ (MessageHandler.mk "S" [Turn.mk "u" (some "old") true]).add_assistant_message
        "x"
        = .ok { MessageHandler.mk "S" [Turn.mk "u" (some "old") true] with
                turns := [Turn.mk "u" (some "old") true].dropLast
                           ++ [{ Turn.mk "u" (some "old") true with
                                 assistantMessage := some "x" }] } :=
  C8_assistant_message "x" (IndexingMessageHandler.create "S") rfl
    ⟨⟨"S", [⟨"u", some "old", true⟩]⟩, [], []⟩ ⟨"u", some "old", true⟩ rfl

/-- C9: `DeepgramTTSService.__init__` resolves the voice to the first
non-empty of the `voice` argument, the `DEEPGRAM_VOICE` environment value and
the literal `"alpha-asteria-en-v2"`, and resolves the speech key to the
`speech_key` argument when non-empty, otherwise the `DEEPGRAM_API_KEY`
environment value. -/
theorem C9_deepgram_resolution (voice envVoice speech_key envKey : Option String) :
    DeepgramTTSService.voiceInit voice envVoice
        = specFirstNonEmpty [voice, envVoice, some "alpha-asteria-en-v2"]
    ∧ DeepgramTTSService.speechKeyInit speech_key envKey
        = specKeyResolution speech_key envKey := by
  constructor
  · cases voice with
    | some s =>
      by_cases hs : s = ""
      · subst hs
        cases envVoice with
        | some e =>
          by_cases he : e = ""
          · subst he; rfl
          · simp [DeepgramTTSService.voiceInit, pyOr, pyTruthy,
              specFirstNonEmpty, he]
        | none => rfl
      · simp [DeepgramTTSService.voiceInit, pyOr, pyTruthy,
          specFirstNonEmpty, hs]
    | none =>
      cases envVoice with
      | some e =>
        by_cases he : e = ""
        · subst he; rfl
        · simp [DeepgramTTSService.voiceInit, pyOr, pyTruthy,
            specFirstNonEmpty, he]
      | none => rfl
  · cases speech_key with
    | none => rfl
    | some s =>
      by_cases hs : s = ""
      · subst hs; rfl
      · simp [DeepgramTTSService.speechKeyInit, pyOr, pyTruthy,
          specKeyResolution, hs]

/-- C10 counterexample: the frame `"#####"` contains a marker — so it falls in
the claim's "otherwise returns a CustomFrame" branch — yet
`create_custom_frame` returns `None` for it, because after removing the
marker and stripping whitespace the text is empty. -/
theorem C10_marker_only_frame_counterexample :
    containsSeq hashMarker "#####".data = true
    ∧ (create_custom_frame none "#####".data).2.2 = none := by
  constructor <;> decide

/-- C10 (amended): `create_custom_frame` returns `None` exactly when no marker
has been seen (in this frame or any earlier one) or when the frame's text —
after removing the marker occurrences and trimming surrounding whitespace —
is empty; otherwise it returns a `CustomFrame` tagged with the character of
the most recently seen marker, carrying the marker-stripped text. -/
theorem C10_create_custom_frame_amended (fc : Option Character)
    (text : List Char) :
    create_custom_frame fc text
      = (charAfter fc text, textAfter text,
          match charAfter fc text with
          | none => none
          | some c =>
            if (textAfter text).isEmpty then none
            else some ⟨textAfter text, c⟩) := by
  unfold create_custom_frame charAfter textAfter
  by_cases h1 : containsSeq hashMarker text = true <;>
    by_cases h2 : containsSeq dashMarker text = true <;>
      cases fc <;>
        simp [h1, h2] <;> (try split <;> rfl)
